import Mathlib

/-!
  # Carpintaria Digital: dialogue engine and offline cache controller

  A shallow embedding of `static/assets/js/chatbot.js` (the scripted chat widget)
  and of `static/sw.js` (the service worker), with the properties of the two
  state machines stated and proved over the embedding.

  Conventions of the embedding

  * A JavaScript object literal is kept as the list of `key: value` pairs in the
  order they are written; reading a property takes the value written last.
  * The page is an explicit state: the `active` class of `chatWindow`, the
  children of `messagesArea`, the callbacks handed to `setTimeout` that have not
  run yet, and the calls made on `window`. The renders scheduled by
  `handleOption` share one delay and run oldest first; the deflections
  scheduled by `handleInput` are all alike and are counted. An event sequence
  may run the two kinds in any order, which covers every order the browser
  can produce.
  * A function that can throw returns an `Outcome` that keeps the state left
  behind by the statements that ran before the exception.
-/

namespace Carpintaria

/-! ## Object literals and property reads -/

/-- Value of property `key` of an object literal given by its written pairs;
  a key written twice keeps the value written last. -/
def getProp {α : Type} (key : String) : List (String × α) → Option α
  | [] => none
  | (k, v) :: rest =>
    match getProp key rest with
    | some w => some w
    | none => if k = key then some v else none

/-- Number of times the key is written in an object literal. -/
def timesWritten {α : Type} (key : String) (lit : List (String × α)) : Nat :=
  (lit.filter (fun p => p.1 = key)).length

/-- String conversion applied when a possibly missing property is assigned to
  `innerText` or passed to `encodeURIComponent`. -/
def jsString : Option String → String
  | some s => s
  | none => "undefined"

/-- Truthiness of a string valued property: missing and empty are falsy. -/
def truthy : Option String → Bool
  | some s => s != ""
  | none => false

/-! ## Conversation graph -/

/-- An option object literal, as written. -/
abbrev Opt := List (String × String)

/-- A conversation node: `msg` and the `options` array when present. -/
structure Node where
  msg : String
  options : Option (List Opt)
deriving DecidableEq, Repr

/-- A conversation graph literal: node name and node, as written. -/
abbrev Graph := List (String × Node)

/-- The literal `chatData` of chatbot.js. -/
def chatData : Graph :=
  [ ("start",
      { msg := "Olá! 👋 Bem-vindo à Carpintaria Digital. Eu sou o Assistente Virtual. Como posso ajudar o seu negócio hoje?"
        options := some
          [ [("text", "🚀 Ver Plataformas"), ("next", "platforms")],
            [("text", "💰 Consultoria"), ("next", "consulting")],
            [("text", "📞 Falar com Humano"), ("next", "contact")] ] }),
    ("platforms",
      { msg := "Temos soluções incríveis! Qual lhe interessa?"
        options := some
          [ [("text", "TiConta (ERP)"), ("action", "link"), ("url", "https://app.carpintariadigital.com")],
            [("text", "Txiling (Eventos)"), ("action", "goto"), ("url", "Txiling.html")],
            [("text", "Voltar"), ("next", "start")] ] }),
    ("consulting",
      { msg := "Ótima escolha. Ajudamos empresas a digitalizar processos. Gostaria de agendar um diagnóstico gratuito?"
        options := some
          [ [("text", "Sim, no WhatsApp"), ("action", "whatsapp"),
              ("text", "Olá! Quero um diagnóstico para a minha empresa.")],
            [("text", "Não, obrigado"), ("next", "start")] ] }),
    ("contact",
      { msg := "Sem problema. Pode ligar ou mandar mensagem direta."
        options := some
          [ [("text", "WhatsApp Direto"), ("action", "whatsapp"),
              ("text", "Olá Ildino, preciso de falar consigo.")],
            [("text", "Voltar"), ("next", "start")] ] }) ]

/-- Property names every plain object inherits from `Object.prototype`. -/
def objectPrototypeKeys : List String :=
  [ "constructor", "__proto__", "hasOwnProperty", "isPrototypeOf",
    "propertyIsEnumerable", "toLocaleString", "toString", "valueOf",
    "__defineGetter__", "__defineSetter__", "__lookupGetter__", "__lookupSetter__" ]

/-- Result of the property read `chatData[nodeName]`. -/
inductive Lookup where
  | own (data : Node)
  | inherited
  | undefined
deriving DecidableEq, Repr

/-- The read `g[nodeName]`: a node written in the literal, otherwise a member
  inherited from `Object.prototype` (which has neither `msg` nor `options`),
  otherwise `undefined`. -/
def lookupNode (g : Graph) (nodeName : String) : Lookup :=
  match getProp nodeName g with
  | some data => Lookup.own data
  | none => if nodeName ∈ objectPrototypeKeys then Lookup.inherited else Lookup.undefined

/-- A node name is defined in the graph when the literal writes it. -/
def defined (g : Graph) (nodeName : String) : Bool :=
  (getProp nodeName g).isSome

/-! ## Page state -/

/-- Sender tag of a rendered message (`msg-bot` or `msg-user`). -/
inductive Sender where
  | bot
  | user
deriving DecidableEq, Repr

/-- A rendered `option-btn`: its `innerText` and the option its `onclick` passes
  to `handleOption`. -/
structure Button where
  label : String
  onclick : Opt
deriving DecidableEq, Repr

/-- A child of `messagesArea`: a `msg msg-<sender>` div or a `chat-options` div. -/
inductive Elem where
  | msg (sender : Sender) (text : String)
  | options (buttons : List Button)
deriving DecidableEq, Repr

/-- Whether the element matches the selector `.chat-options`. -/
def Elem.isChatOptions : Elem → Bool
  | Elem.options _ => true
  | Elem.msg _ _ => false

/-- The page as the chat script sees it. -/
structure Page where
  /-- `chatWindow.classList.contains('active')` -/
  active : Bool
  /-- `messagesArea.children` -/
  children : List Elem
  /-- node names of the scheduled `showNode` callbacks that have not run, oldest first -/
  timers : List String
  /-- number of scheduled deflection callbacks of `handleInput` that have not run -/
  deflections : Nat
  /-- urls passed to `window.open(url, '_blank')`, oldest first -/
  opened : List String
  /-- last value assigned to `window.location.href` -/
  href : Option String
deriving DecidableEq, Repr

/-- The page right after load: closed widget, empty transcript. -/
def Page.initial : Page :=
  { active := false, children := [], timers := [], deflections := 0, opened := [], href := none }

/-- Result of running a handler: it returned, or it threw an uncaught
  `TypeError`; either way the state it left behind. -/
inductive Outcome where
  | done (s : Page)
  | threw (s : Page)
deriving DecidableEq, Repr

/-- State left behind by a handler. -/
def Outcome.state : Outcome → Page
  | Outcome.done s => s
  | Outcome.threw s => s

/-- Whether the handler ended by an uncaught exception. -/
def Outcome.failed : Outcome → Bool
  | Outcome.done _ => false
  | Outcome.threw _ => true

/-- The rendered messages of a transcript, in order. -/
def transcript : List Elem → List (Sender × String)
  | [] => []
  | Elem.msg sender text :: rest => (sender, text) :: transcript rest
  | Elem.options _ :: rest => transcript rest

/-- The rendered `chat-options` blocks, in order. -/
def optionBlocks : List Elem → List (List Button)
  | [] => []
  | Elem.msg _ _ :: rest => optionBlocks rest
  | Elem.options bs :: rest => bs :: optionBlocks rest

/-! ## chatbot.js -/

/-- `addMessage(text, sender)`. -/
def addMessage (text : String) (sender : Sender) (s : Page) : Page :=
  { s with children := s.children ++ [Elem.msg sender text] }

/-- The statement `document.querySelectorAll('.chat-options').forEach(el => el.remove())`. -/
def removeOldOptions (s : Page) : Page :=
  { s with children := s.children.filter (fun el => !el.isChatOptions) }

/-- The `option-btn` buttons built from a node's options, one per option. -/
def optionButtons (opts : List Opt) : List Button :=
  opts.map (fun opt => { label := jsString (getProp "text" opt), onclick := opt })

/-- The `chat-options` div built from a node's options. -/
def optionsDiv (opts : List Opt) : Elem :=
  Elem.options (optionButtons opts)

/-- `showNode(nodeName)` over the graph `g`. -/
def showNode (g : Graph) (nodeName : String) (s : Page) : Outcome :=
  match lookupNode g nodeName with
  | Lookup.undefined => Outcome.threw s
  | Lookup.inherited =>
    Outcome.done (removeOldOptions (addMessage "undefined" Sender.bot s))
  | Lookup.own data =>
    let s1 := removeOldOptions (addMessage data.msg Sender.bot s)
    match data.options with
    | some opts => Outcome.done { s1 with children := s1.children ++ [optionsDiv opts] }
    | none => Outcome.done s1

/-- `toggleChat()` over the graph `g`. -/
def toggleChat (g : Graph) (s : Page) : Outcome :=
  let s1 := { s with active := !s.active }
  if s1.active && s1.children.length == 0 then showNode g "start" s1
  else Outcome.done s1

/-- Code points `encodeURIComponent` leaves as they are:
  letters, digits and `- _ . ! ~ * ' ( )`. -/
def uriUnreserved (c : Nat) : Bool :=
  (65 ≤ c && c ≤ 90) || (97 ≤ c && c ≤ 122) || (48 ≤ c && c ≤ 57) ||
  c == 45 || c == 95 || c == 46 || c == 33 || c == 126 || c == 42 ||
  c == 39 || c == 40 || c == 41

/-- UTF-8 bytes of a code point. -/
def utf8Bytes (c : Nat) : List Nat :=
  if c < 128 then [c]
  else if c < 2048 then [192 + c / 64, 128 + c % 64]
  else if c < 65536 then [224 + c / 4096, 128 + c / 64 % 64, 128 + c % 64]
  else [240 + c / 262144, 128 + c / 4096 % 64, 128 + c / 64 % 64, 128 + c % 64]

/-- Upper-case hexadecimal digit. -/
def hexDigit (n : Nat) : Char :=
  if n < 10 then Char.ofNat (48 + n) else Char.ofNat (55 + n)

/-- Percent escape `%XX` of one byte. -/
def percentByte (b : Nat) : List Char :=
  ['%', hexDigit (b / 16), hexDigit (b % 16)]

/-- `encodeURIComponent(text)`. -/
def encodeURIComponent (text : String) : String :=
  String.mk (text.data.flatMap (fun ch =>
    if uriUnreserved ch.toNat then [ch] else (utf8Bytes ch.toNat).flatMap percentByte))

/-- The deep link opened by the `whatsapp` action. -/
def whatsappLink (text : String) : String :=
  "https://wa.me/258840000000?text=" ++ encodeURIComponent text

/-- `handleOption(opt)`. -/
def handleOption (opt : Opt) (s : Page) : Page :=
  let s1 := addMessage (jsString (getProp "text" opt)) Sender.user s
  if truthy (getProp "next" opt) then
    { s1 with timers := s1.timers ++ [jsString (getProp "next" opt)] }
  else if getProp "action" opt = some "link" then
    addMessage "Abri o link numa nova aba! 😊" Sender.bot
      { s1 with opened := s1.opened ++ [(getProp "url" opt).getD ""] }
  else if getProp "action" opt = some "goto" then
    { s1 with href := some (jsString (getProp "url" opt)) }
  else if getProp "action" opt = some "whatsapp" then
    addMessage "Redirecionando para o WhatsApp..." Sender.bot
      { s1 with opened := s1.opened ++ [whatsappLink (jsString (getProp "text" opt))] }
  else s1

/-- The oldest scheduled callback `() => showNode(opt.next)` runs. -/
def runTimer (g : Graph) (s : Page) : Outcome :=
  match s.timers with
  | [] => Outcome.done s
  | nodeName :: rest => showNode g nodeName { s with timers := rest }

/-- Code points `String.prototype.trim` strips: white space and line terminators. -/
def jsWhiteSpace (c : Nat) : Bool :=
  c == 9 || c == 10 || c == 11 || c == 12 || c == 13 || c == 32 || c == 160 ||
  c == 5760 || (8192 ≤ c && c ≤ 8202) || c == 8232 || c == 8233 || c == 8239 ||
  c == 8287 || c == 12288 || c == 65279

/-- Truthiness of `input.value.trim()`: a character is left after trimming. -/
def trimTruthy (value : String) : Bool :=
  value.data.any (fun ch => !jsWhiteSpace ch.toNat)

/-- `handleInput(e)` with `e.key = key` while the field `user-input` holds `value`. -/
def handleInput (key : String) (value : String) (s : Page) : Page :=
  if key = "Enter" then
    if trimTruthy value then
      { addMessage value Sender.user s with deflections := s.deflections + 1 }
    else s
  else s

/-- A scheduled callback of `handleInput` runs: the deflection message is appended. -/
def runDeflection (s : Page) : Page :=
  match s.deflections with
  | 0 => s
  | n + 1 =>
    addMessage "Ainda estou a aprender a ler texto livre! Por favor, use os botões acima. 😅"
      Sender.bot { s with deflections := n }

/-- All buttons currently in the document, in order. -/
def renderedButtons (s : Page) : List Button :=
  (optionBlocks s.children).flatten

/-- Things that happen to the widget. -/
inductive Event where
  /-- the launcher is clicked: `toggleChat()` -/
  | toggle
  /-- the `i`-th rendered button is clicked: its `onclick` runs -/
  | click (i : Nat)
  /-- the display delay of the oldest scheduled render elapses -/
  | timeout
  /-- a key is pressed in the field `user-input` holding `value`: `handleInput(e)` -/
  | keydown (key : String) (value : String)
  /-- the delay of a scheduled deflection elapses -/
  | deflect
deriving DecidableEq, Repr

/-- State after one event. -/
def step (g : Graph) (s : Page) : Event → Page
  | Event.toggle => (toggleChat g s).state
  | Event.click i =>
    match (renderedButtons s)[i]? with
    | some btn => handleOption btn.onclick s
    | none => s
  | Event.timeout => (runTimer g s).state
  | Event.keydown key value => handleInput key value s
  | Event.deflect => runDeflection s

/-- State after a sequence of events. -/
def run (g : Graph) (s : Page) (events : List Event) : Page :=
  events.foldl (step g) s

/-- The texts submitted through the free-text field by a sequence of events. -/
def submittedTexts : List Event → List String
  | [] => []
  | Event.keydown key value :: rest =>
    if key = "Enter" ∧ trimTruthy value = true then value :: submittedTexts rest
    else submittedTexts rest
  | Event.toggle :: rest => submittedTexts rest
  | Event.click _ :: rest => submittedTexts rest
  | Event.timeout :: rest => submittedTexts rest
  | Event.deflect :: rest => submittedTexts rest

/-- The widget opened on an empty transcript. -/
def opened (g : Graph) : Page :=
  (toggleChat g Page.initial).state

/-! ## sw.js: cache storage -/

/-- The constant `CACHE_NAME`. -/
def CACHE_NAME : String := "carpintaria-os-v4.5"

/-- The constant `ASSETS_TO_CACHE`. -/
def ASSETS_TO_CACHE : List String :=
  [ "/",
    "/store",
    "/office",
    "/static/css/style.css",
    "/static/assets/js/main.js",
    "/static/images/logo-192.png",
    "/static/Entrada.html",
    "/static/dumbanengue.html",
    "/static/Escritorio.html",
    "/static/manifest.json",
    "https://cdnjs.cloudflare.com/ajax/libs/font-awesome/6.5.1/css/all.min.css",
    "https://fonts.googleapis.com/css2?family=Playfair+Display:wght@700;900&family=Inter:wght@300;400;600&display=swap" ]

/-- A request: method, locator and the `accept` header when present. -/
structure Request where
  method : String
  url : String
  accept : Option String
deriving DecidableEq, Repr

/-- A response: status code and body. -/
structure Response where
  status : Nat
  body : String
deriving DecidableEq, Repr

/-- `response.ok`: the status is in the range 200 to 299. -/
def Response.ok (r : Response) : Bool :=
  200 ≤ r.status && r.status ≤ 299

/-- The request made for a bare locator, as `cache.addAll` and
  `caches.match('/static/Entrada.html')` do. -/
def Request.get (url : String) : Request :=
  { method := "GET", url := url, accept := some "*/*" }

/-- The network at one moment: `fetch(request)` resolves with a response or
  rejects (`none`). -/
abbrev Network := Request → Option Response

/-- One cache generation: stored requests with their responses, oldest first. -/
abbrev Cache := List (Request × Response)

/-- All cache generations of the origin by name, in creation order. -/
abbrev CacheStorage := List (String × Cache)

/-- `cache.match(request)`: nothing for a query that is not a GET, otherwise
  the response stored for the locator. -/
def cacheMatch (c : Cache) (query : Request) : Option Response :=
  if query.method != "GET" then none
  else (c.find? (fun e => e.1.url == query.url)).map (fun e => e.2)

/-- `cache.put(request, response)` of a response that is not partial: the entry
  for the locator is replaced. The request is stored as given. -/
def cachePut (request : Request) (response : Response) (c : Cache) : Cache :=
  c.filter (fun e => e.1.url != request.url) ++ [(request, response)]

/-- Whether the Cache API stores the response on `addAll`: the status is `ok`
  and is not 206 (a partial response). -/
def Response.addable (r : Response) : Bool :=
  r.ok && r.status != 206

/-- The responses `cache.addAll` collects: every locator is fetched, and one
  rejected fetch or one response that is not `ok` or is partial (206) rejects
  the whole batch. -/
def fetchAll (net : Network) : List String → Option (List (Request × Response))
  | [] => some []
  | url :: rest =>
    match net (Request.get url) with
    | none => none
    | some r =>
      if r.addable then
        match fetchAll net rest with
        | some es => some ((Request.get url, r) :: es)
        | none => none
      else none

/-- `cache.addAll(urls)`: the new cache, or `none` when the batch is rejected
  (nothing is stored then). -/
def cacheAddAll (net : Network) (urls : List String) (c : Cache) : Option Cache :=
  match fetchAll net urls with
  | some es => some (es.foldl (fun acc e => cachePut e.1 e.2 acc) c)
  | none => none

/-- `caches.keys()`. -/
def cachesKeys (st : CacheStorage) : List String :=
  st.map (fun p => p.1)

/-- `caches.has(name)`. -/
def cachesHas (name : String) (st : CacheStorage) : Bool :=
  st.any (fun p => p.1 == name)

/-- `caches.open(name)`: the generation is created empty when it does not exist. -/
def cachesOpen (name : String) (st : CacheStorage) : CacheStorage :=
  if cachesHas name st then st else st ++ [(name, [])]

/-- The content of the generation `name` (empty when it does not exist). -/
def cachesGet (name : String) (st : CacheStorage) : Cache :=
  match st.find? (fun p => p.1 == name) with
  | some p => p.2
  | none => []

/-- The generation `name` is given a new content. -/
def cachesSet (name : String) (c : Cache) (st : CacheStorage) : CacheStorage :=
  st.map (fun p => if p.1 == name then (p.1, c) else p)

/-- `caches.delete(name)`. -/
def cachesDelete (name : String) (st : CacheStorage) : CacheStorage :=
  st.filter (fun p => p.1 != name)

/-- `caches.match(request)`: the first match over the generations in creation order. -/
def cachesMatch : CacheStorage → Request → Option Response
  | [], _ => none
  | (_, c) :: rest, query =>
    match cacheMatch c query with
    | some r => some r
    | none => cachesMatch rest query

/-! ## sw.js: event listeners -/

/-- The `install` listener: the storage it leaves and whether the promise
  handed to `waitUntil` was fulfilled. -/
def onInstall (net : Network) (st : CacheStorage) : CacheStorage × Bool :=
  let st1 := cachesOpen CACHE_NAME st
  match cacheAddAll net ASSETS_TO_CACHE (cachesGet CACHE_NAME st1) with
  | some c => (cachesSet CACHE_NAME c st1, true)
  | none => (st1, false)

/-- The `activate` listener: every name returned by `caches.keys()` that is
  not `CACHE_NAME` is deleted. -/
def onActivate (st : CacheStorage) : CacheStorage :=
  (cachesKeys st).foldl
    (fun acc cache => if cache != CACHE_NAME then cachesDelete cache acc else acc) st

/-- `accept.includes(sub)` on the characters of the two strings. -/
def includesChars (sub : List Char) : List Char → Bool
  | [] => sub.isEmpty
  | c :: cs => sub.isPrefixOf (c :: cs) || includesChars sub cs

/-- What the `fetch` listener does with the event. -/
inductive FetchResult where
  /-- the listener returned without calling `respondWith` -/
  | passthrough
  /-- the promise given to `respondWith` was fulfilled, with a response or with `undefined` -/
  | respond (r : Option Response)
  /-- the promise given to `respondWith` was rejected -/
  | rejected
deriving DecidableEq, Repr

/-- The `fetch` listener: what the event gets and the storage afterwards. -/
def onFetch (net : Network) (st : CacheStorage) (request : Request) :
    FetchResult × CacheStorage :=
  if request.method != "GET" then (FetchResult.passthrough, st)
  else
    match net request with
    | some response =>
      let st1 := cachesOpen CACHE_NAME st
      (FetchResult.respond (some response),
        if response.status == 206 then st1
        else cachesSet CACHE_NAME (cachePut request response (cachesGet CACHE_NAME st1)) st1)
    | none =>
      match cachesMatch st request with
      | some cachedResponse => (FetchResult.respond (some cachedResponse), st)
      | none =>
        match request.accept with
        | none => (FetchResult.rejected, st)
        | some accept =>
          if includesChars "text/html".data accept.data then
            (FetchResult.respond (cachesMatch st (Request.get "/static/Entrada.html")), st)
          else (FetchResult.respond none, st)

/-- Events the service worker receives, each with the network of its moment. -/
inductive SwEvent where
  | install (net : Network)
  | activate
  | fetch (net : Network) (request : Request)

/-- Storage after one service worker event. -/
def swStep (st : CacheStorage) : SwEvent → CacheStorage
  | SwEvent.install net => (onInstall net st).1
  | SwEvent.activate => onActivate st
  | SwEvent.fetch net request => (onFetch net st request).2

/-- Storage after a sequence of service worker events. -/
def swRun (st : CacheStorage) (events : List SwEvent) : CacheStorage :=
  events.foldl swStep st

/-- Every stored key of every generation is a GET request. -/
def allKeysGet (st : CacheStorage) : Prop :=
  ∀ p ∈ st, ∀ e ∈ p.2, e.1.method = "GET"

/-- The options of a node (none when the node has no `options`). -/
def Node.optionList (data : Node) : List Opt :=
  match data.options with
  | some opts => opts
  | none => []

/-- The two labels written first in the `whatsapp` option literals. -/
def shadowedLabel (t : String) : Prop :=
  t = "Sim, no WhatsApp" ∨ t = "WhatsApp Direto"

instance (t : String) : Decidable (shadowedLabel t) := by
  unfold shadowedLabel
  infer_instance

/-- What holds of the page at every moment after the widget was opened: the
  pending renders name defined nodes, there is one option block and it is the
  block of a node of `chatData`, and a message that shows a shadowed label is
  a user message whose text is one of the `typed` texts. -/
def PageInv (typed : List String) (s : Page) : Prop :=
  (∀ t ∈ s.timers, defined chatData t = true) ∧
  (∃ p ∈ chatData, optionBlocks s.children = [optionButtons p.2.optionList]) ∧
  (∀ m ∈ transcript s.children, shadowedLabel m.2 → m.1 = Sender.user ∧ m.2 ∈ typed)

/-- Whether some option of the graph has a `next` that names no defined node. -/
def hasDanglingEdge (g : Graph) : Bool :=
  g.any (fun p => p.2.optionList.any (fun opt =>
    truthy (getProp "next" opt) && !defined g (jsString (getProp "next" opt))))

/-- A conversation graph whose only option points to a node that is not defined. -/
def danglingGraph : Graph :=
  [ ("start",
      { msg := "Olá!"
        options := some [ [("text", "Preços"), ("next", "pricing")] ] }) ]

/-! ## Shared lemmas: property reads and transcripts -/

theorem getProp_mem {α : Type} (key : String) (lit : List (String × α)) (v : α)
    (h : getProp key lit = some v) : (key, v) ∈ lit := by
  induction lit with
  | nil => simp [getProp] at h
  | cons p rest ih =>
    obtain ⟨k, w⟩ := p
    unfold getProp at h
    cases hr : getProp key rest with
    | some u =>
      rw [hr] at h
      simp only [Option.some.injEq] at h
      subst h
      exact List.mem_cons_of_mem _ (ih hr)
    | none =>
      rw [hr] at h
      by_cases hk : k = key
      · simp only [hk, if_true, Option.some.injEq] at h
        subst h
        subst hk
        exact List.mem_cons_self _ _
      · simp [hk] at h

theorem transcript_append (xs ys : List Elem) :
    transcript (xs ++ ys) = transcript xs ++ transcript ys := by
  induction xs with
  | nil => rfl
  | cons x rest ih => cases x <;> simp [transcript, ih]

theorem optionBlocks_append (xs ys : List Elem) :
    optionBlocks (xs ++ ys) = optionBlocks xs ++ optionBlocks ys := by
  induction xs with
  | nil => rfl
  | cons x rest ih => cases x <;> simp [optionBlocks, ih]

theorem transcript_removeOptions (xs : List Elem) :
    transcript (xs.filter (fun el => !el.isChatOptions)) = transcript xs := by
  induction xs with
  | nil => rfl
  | cons x rest ih =>
    cases x with
    | msg sender text =>
      rw [List.filter_cons_of_pos (by rfl)]
      simp only [transcript, ih]
    | options bs =>
      rw [List.filter_cons_of_neg (by simp [Elem.isChatOptions])]
      simp only [transcript, ih]

theorem optionBlocks_removeOptions (xs : List Elem) :
    optionBlocks (xs.filter (fun el => !el.isChatOptions)) = [] := by
  induction xs with
  | nil => rfl
  | cons x rest ih =>
    cases x with
    | msg sender text =>
      rw [List.filter_cons_of_pos (by rfl)]
      simp only [optionBlocks, ih]
    | options bs =>
      rw [List.filter_cons_of_neg (by simp [Elem.isChatOptions])]
      exact ih

theorem lookupNode_of_getProp (g : Graph) (name : String) (data : Node)
    (h : getProp name g = some data) : lookupNode g name = Lookup.own data := by
  simp [lookupNode, h]

/-- What `showNode` does for a node written in the graph with an `options` array. -/
theorem showNode_own (g : Graph) (name : String) (data : Node) (opts : List Opt) (s : Page)
    (h : getProp name g = some data) (ho : data.options = some opts) :
    showNode g name s = Outcome.done
      { s with children :=
          (s.children ++ [Elem.msg Sender.bot data.msg]).filter (fun el => !el.isChatOptions)
            ++ [optionsDiv opts] } := by
  simp [showNode, lookupNode_of_getProp g name data h, ho, removeOldOptions, addMessage]

/-- What `handleOption` does for an option whose `next` is a non-empty string. -/
theorem handleOption_next (opt : Opt) (next : String) (s : Page)
    (h : getProp "next" opt = some next) (hne : next ≠ "") :
    handleOption opt s =
      { s with children := s.children ++ [Elem.msg Sender.user (jsString (getProp "text" opt))]
               timers := s.timers ++ [next] } := by
  simp [handleOption, h, truthy, hne, addMessage, jsString]

theorem chatData_start_label :
    ∀ p ∈ chatData, p.1 = "start" → ∀ opt ∈ p.2.optionList,
      getProp "text" opt = some "🚀 Ver Plataformas" → getProp "next" opt = some "platforms" := by
  decide

theorem chatData_voltar :
    ∀ p ∈ chatData, p.1 ≠ "start" → ∀ opt ∈ p.2.optionList,
      getProp "text" opt = some "Voltar" → getProp "next" opt = some "start" := by
  decide

theorem chatData_next_defined :
    ∀ p ∈ chatData, ∀ opt ∈ p.2.optionList, ∀ next ∈ getProp "next" opt,
      defined chatData next = true := by
  decide

theorem chatData_nodes_have_options :
    ∀ p ∈ chatData, p.2.options.isSome = true := by
  decide

theorem chatData_defined_options (name : String) (data : Node)
    (h : getProp name chatData = some data) : ∃ opts, data.options = some opts := by
  have hm := chatData_nodes_have_options (name, data) (getProp_mem name chatData data h)
  exact Option.isSome_iff_exists.mp hm

theorem optionList_of_options (data : Node) (opts : List Opt) (h : data.options = some opts) :
    data.optionList = opts := by
  simp [Node.optionList, h]

/-- Selecting an option with a `next` on a page without pending renders, then
  letting the delay elapse: the user message, the target message and the target
  options are appended, the old option blocks are gone. -/
theorem deferred_render (g : Graph) (opt : Opt) (next : String) (data : Node)
    (opts : List Opt) (s : Page) (hs : s.timers = [])
    (h : getProp "next" opt = some next) (hne : next ≠ "")
    (hd : getProp next g = some data) (ho : data.options = some opts) :
    runTimer g (handleOption opt s) = Outcome.done
      { s with children :=
          (s.children ++ [Elem.msg Sender.user (jsString (getProp "text" opt))]
              ++ [Elem.msg Sender.bot data.msg]).filter (fun el => !el.isChatOptions)
            ++ [optionsDiv opts] } := by
  rw [handleOption_next opt next s h hne]
  simp only [runTimer, hs, List.nil_append]
  rw [showNode_own g next data opts _ hd ho]

theorem transcript_optionsDiv (opts : List Opt) : transcript [optionsDiv opts] = [] := rfl

/-- The transcript after `deferred_render`. -/
theorem deferred_render_transcript (g : Graph) (opt : Opt) (next : String) (data : Node)
    (opts : List Opt) (s : Page) (hs : s.timers = [])
    (h : getProp "next" opt = some next) (hne : next ≠ "")
    (hd : getProp next g = some data) (ho : data.options = some opts) :
    (runTimer g (handleOption opt s)).failed = false ∧
    transcript (handleOption opt s).children =
      transcript s.children ++ [(Sender.user, jsString (getProp "text" opt))] ∧
    transcript (runTimer g (handleOption opt s)).state.children =
      transcript (handleOption opt s).children ++ [(Sender.bot, data.msg)] := by
  rw [deferred_render g opt next data opts s hs h hne hd ho, handleOption_next opt next s h hne]
  simp [Outcome.failed, Outcome.state, transcript_append, transcript_removeOptions,
    transcript_optionsDiv, transcript]

/-- C1 (dialogue determinism). On any page without pending renders: selecting an
  option of `start` labelled "🚀 Ver Plataformas" and letting the deferred render
  run appends the label as user message and then exactly the msg of `platforms`
  as bot message; for every node other than `start`, selecting an option of it
  labelled "Voltar" and letting the deferred render run appends exactly the msg
  of `start` as bot message. -/
theorem dialogue_determinism (s : Page) (hs : s.timers = []) :
    (∀ data opt, getProp "start" chatData = some data → opt ∈ data.optionList →
      getProp "text" opt = some "🚀 Ver Plataformas" →
      ∃ target, getProp "platforms" chatData = some target ∧
        target.msg = "Temos soluções incríveis! Qual lhe interessa?" ∧
        (runTimer chatData (handleOption opt s)).failed = false ∧
        transcript (handleOption opt s).children =
          transcript s.children ++ [(Sender.user, "🚀 Ver Plataformas")] ∧
        transcript (runTimer chatData (handleOption opt s)).state.children =
          transcript (handleOption opt s).children ++ [(Sender.bot, target.msg)]) ∧
    (∀ name data opt, name ≠ "start" → getProp name chatData = some data →
      opt ∈ data.optionList → getProp "text" opt = some "Voltar" →
      ∃ target, getProp "start" chatData = some target ∧
        target.msg = "Olá! 👋 Bem-vindo à Carpintaria Digital. Eu sou o Assistente Virtual. Como posso ajudar o seu negócio hoje?" ∧
        (runTimer chatData (handleOption opt s)).failed = false ∧
        transcript (handleOption opt s).children =
          transcript s.children ++ [(Sender.user, "Voltar")] ∧
        transcript (runTimer chatData (handleOption opt s)).state.children =
          transcript (handleOption opt s).children ++ [(Sender.bot, target.msg)]) := by
  constructor
  · intro data opt hdata hmem htext
    have hnext := chatData_start_label ("start", data)
      (getProp_mem "start" chatData data hdata) rfl opt hmem htext
    cases ht : getProp "platforms" chatData with
    | none => exact absurd ht (by decide)
    | some target =>
      obtain ⟨opts, ho⟩ := chatData_defined_options "platforms" target ht
      have hmsg : (getProp "platforms" chatData).map Node.msg =
          some "Temos soluções incríveis! Qual lhe interessa?" := by decide
      rw [ht] at hmsg
      have key := deferred_render_transcript chatData opt "platforms" target opts s hs hnext
        (by decide) ht ho
      rw [htext] at key
      exact ⟨target, rfl, by simpa using hmsg, key⟩
  · intro name data opt hname hdata hmem htext
    have hnext := chatData_voltar (name, data)
      (getProp_mem name chatData data hdata) hname opt hmem htext
    cases ht : getProp "start" chatData with
    | none => exact absurd ht (by decide)
    | some target =>
      obtain ⟨opts, ho⟩ := chatData_defined_options "start" target ht
      have hmsg : (getProp "start" chatData).map Node.msg =
          some "Olá! 👋 Bem-vindo à Carpintaria Digital. Eu sou o Assistente Virtual. Como posso ajudar o seu negócio hoje?" := by decide
      rw [ht] at hmsg
      have key := deferred_render_transcript chatData opt "start" target opts s hs hnext
        (by decide) ht ho
      rw [htext] at key
      exact ⟨target, rfl, by simpa using hmsg, key⟩

/-- C3 (no dangling edges). For every node defined in `chatData` and every option of
  that node that carries a `next` value, the value is the name of a node defined
  in `chatData`. -/
theorem no_dangling_edges (name : String) (data : Node) (opts : List Opt) (opt : Opt)
    (next : String) (hdata : getProp name chatData = some data)
    (hopts : data.options = some opts) (hmem : opt ∈ opts)
    (hnext : getProp "next" opt = some next) :
    defined chatData next = true ∧ ∃ target, lookupNode chatData next = Lookup.own target := by
  have hd : defined chatData next = true :=
    chatData_next_defined (name, data) (getProp_mem name chatData data hdata) opt
      (by rw [optionList_of_options data opts hopts]; exact hmem) next hnext
  refine ⟨hd, ?_⟩
  obtain ⟨target, ht⟩ := Option.isSome_iff_exists.mp hd
  exact ⟨target, lookupNode_of_getProp chatData next target ht⟩

/-- Witness of C1 on the freshly opened widget: "🚀 Ver Plataformas" from `start`,
  and "Voltar" as written in `contact`. -/
theorem dialogue_determinism_witness :
    (opened chatData).timers = [] ∧
    transcript (runTimer chatData (handleOption
        [("text", "🚀 Ver Plataformas"), ("next", "platforms")] (opened chatData))).state.children =
      transcript (handleOption
        [("text", "🚀 Ver Plataformas"), ("next", "platforms")] (opened chatData)).children ++
        [(Sender.bot, "Temos soluções incríveis! Qual lhe interessa?")] ∧
    transcript (runTimer chatData (handleOption
        [("text", "Voltar"), ("next", "start")] (opened chatData))).state.children =
      transcript (handleOption
        [("text", "Voltar"), ("next", "start")] (opened chatData)).children ++
        [(Sender.bot, "Olá! 👋 Bem-vindo à Carpintaria Digital. Eu sou o Assistente Virtual. Como posso ajudar o seu negócio hoje?")] := by
  have h := dialogue_determinism (opened chatData) (by decide)
  refine ⟨by decide, ?_, ?_⟩
  · cases hd : getProp "start" chatData with
    | none => exact absurd hd (by decide)
    | some data =>
      have hm : [("text", "🚀 Ver Plataformas"), ("next", "platforms")] ∈
          ((getProp "start" chatData).map Node.optionList).getD [] := by decide
      rw [hd] at hm
      obtain ⟨target, _, hmsg, _, _, h2⟩ := h.1 data _ hd hm (by decide)
      rw [hmsg] at h2
      exact h2
  · cases hd : getProp "contact" chatData with
    | none => exact absurd hd (by decide)
    | some data =>
      have hm : [("text", "Voltar"), ("next", "start")] ∈
          ((getProp "contact" chatData).map Node.optionList).getD [] := by decide
      rw [hd] at hm
      obtain ⟨target, _, hmsg, _, _, h2⟩ := h.2 "contact" data _ (by decide) hd hm (by decide)
      rw [hmsg] at h2
      exact h2

/-- Witness of C3: the option "Voltar" of `platforms`. -/
theorem no_dangling_edges_witness :
    getProp "next" [("text", "Voltar"), ("next", "start")] = some "start" ∧
    defined chatData "start" = true ∧
    ∃ target, lookupNode chatData "start" = Lookup.own target := by
  cases hd : getProp "platforms" chatData with
  | none => exact absurd hd (by decide)
  | some data =>
    cases ho : data.options with
    | none =>
      obtain ⟨opts, h⟩ := chatData_defined_options "platforms" data hd
      rw [ho] at h
      exact absurd h (by simp)
    | some opts =>
      have hm : [("text", "Voltar"), ("next", "start")] ∈
          ((getProp "platforms" chatData).map Node.optionList).getD [] := by decide
      rw [hd] at hm
      simp only [Option.map_some', Option.getD_some] at hm
      rw [optionList_of_options data opts ho] at hm
      exact ⟨by decide,
        no_dangling_edges "platforms" data opts [("text", "Voltar"), ("next", "start")] "start"
          hd ho hm (by decide)⟩

/-! ## The page invariant -/

theorem chatData_option_facts :
    ∀ p ∈ chatData, ∀ opt ∈ p.2.optionList,
      ¬ shadowedLabel (jsString (getProp "text" opt)) ∧
      (truthy (getProp "next" opt) = true →
        defined chatData (jsString (getProp "next" opt)) = true) := by
  decide

theorem chatData_msg_facts :
    ∀ p ∈ chatData, ¬ shadowedLabel p.2.msg := by
  decide

/-- What `handleOption` changes, for any option. -/
theorem handleOption_effect (opt : Opt) (s : Page) :
    optionBlocks (handleOption opt s).children = optionBlocks s.children ∧
    (∃ extra, transcript (handleOption opt s).children =
        transcript s.children ++ (Sender.user, jsString (getProp "text" opt)) :: extra ∧
      ∀ m ∈ extra, m.2 = "Abri o link numa nova aba! 😊" ∨
        m.2 = "Redirecionando para o WhatsApp...") ∧
    ((handleOption opt s).timers = s.timers ∨
      (truthy (getProp "next" opt) = true ∧
        (handleOption opt s).timers = s.timers ++ [jsString (getProp "next" opt)])) := by
  unfold handleOption
  split_ifs with h1 h2 h3 h4
  · refine ⟨by simp [addMessage, optionBlocks_append, optionBlocks], ⟨[], ?_, ?_⟩, Or.inr ⟨h1, ?_⟩⟩
    · simp [addMessage, transcript_append, transcript]
    · simp
    · simp [addMessage]
  · refine ⟨by simp [addMessage, optionBlocks_append, optionBlocks],
      ⟨[(Sender.bot, "Abri o link numa nova aba! 😊")], ?_, ?_⟩, Or.inl ?_⟩
    · simp [addMessage, transcript_append, transcript]
    · simp
    · simp [addMessage]
  · refine ⟨by simp [addMessage, optionBlocks_append, optionBlocks], ⟨[], ?_, ?_⟩, Or.inl ?_⟩
    · simp [addMessage, transcript_append, transcript]
    · simp
    · simp [addMessage]
  · refine ⟨by simp [addMessage, optionBlocks_append, optionBlocks],
      ⟨[(Sender.bot, "Redirecionando para o WhatsApp...")], ?_, ?_⟩, Or.inl ?_⟩
    · simp [addMessage, transcript_append, transcript]
    · simp
    · simp [addMessage]
  · refine ⟨by simp [addMessage, optionBlocks_append, optionBlocks], ⟨[], ?_, ?_⟩, Or.inl ?_⟩
    · simp [addMessage, transcript_append, transcript]
    · simp
    · simp [addMessage]

theorem pageInv_handleOption (typed : List String) (opt : Opt) (s : Page) (p : String × Node)
    (hp : p ∈ chatData) (hopt : opt ∈ p.2.optionList) (h : PageInv typed s) :
    PageInv typed (handleOption opt s) := by
  obtain ⟨hb, ⟨extra, ht, hx⟩, htm⟩ := handleOption_effect opt s
  obtain ⟨hlabel, hnext⟩ := chatData_option_facts p hp opt hopt
  obtain ⟨i1, i2, i3⟩ := h
  refine ⟨?_, ?_, ?_⟩
  · rcases htm with htm | ⟨htr, htm⟩
    · rw [htm]; exact i1
    · rw [htm]
      intro t hmem
      rcases List.mem_append.mp hmem with hmem | hmem
      · exact i1 t hmem
      · rw [List.mem_singleton.mp hmem]
        exact hnext htr
  · rw [hb]; exact i2
  · rw [ht]
    intro m hmem hsh
    rcases List.mem_append.mp hmem with hmem | hmem
    · exact i3 m hmem hsh
    · rcases List.mem_cons.mp hmem with hmem | hmem
      · rw [hmem] at hsh; exact absurd hsh hlabel
      · rcases hx m hmem with hm | hm
        · rw [hm] at hsh; exact absurd hsh (by decide)
        · rw [hm] at hsh; exact absurd hsh (by decide)

theorem pageInv_showNode (typed : List String) (name : String) (s : Page)
    (hname : defined chatData name = true)
    (h : ∀ m ∈ transcript s.children, shadowedLabel m.2 → m.1 = Sender.user ∧ m.2 ∈ typed)
    (ht : ∀ t ∈ s.timers, defined chatData t = true) :
    PageInv typed (showNode chatData name s).state := by
  obtain ⟨data, hd⟩ := Option.isSome_iff_exists.mp hname
  obtain ⟨opts, ho⟩ := chatData_defined_options name data hd
  have hp := getProp_mem name chatData data hd
  rw [showNode_own chatData name data opts s hd ho]
  refine ⟨ht, ⟨(name, data), hp, ?_⟩, ?_⟩
  · simp [Outcome.state, optionBlocks_append, optionBlocks_removeOptions, optionsDiv,
      optionBlocks, optionList_of_options data opts ho]
  · intro m hmem hsh
    simp only [Outcome.state, transcript_append, transcript_removeOptions, transcript_optionsDiv,
      List.append_nil, transcript] at hmem
    rcases List.mem_append.mp hmem with hmem | hmem
    · exact h m hmem hsh
    · rw [List.mem_singleton.mp hmem] at hsh
      exact absurd hsh (chatData_msg_facts (name, data) hp)

theorem pageInv_opened : PageInv [] (opened chatData) := by
  have h : opened chatData = (showNode chatData "start" { Page.initial with active := true }).state := by
    decide
  rw [h]
  exact pageInv_showNode [] "start" _ (by decide) (by decide) (by decide)

theorem pageInv_children_ne_nil (typed : List String) (s : Page) (h : PageInv typed s) :
    s.children ≠ [] := by
  obtain ⟨_, ⟨p, _, hb⟩, _⟩ := h
  intro hnil
  rw [hnil] at hb
  simp [optionBlocks] at hb

theorem pageInv_mono (typed typed2 : List String) (s : Page) (hsub : ∀ t ∈ typed, t ∈ typed2)
    (h : PageInv typed s) : PageInv typed2 s :=
  ⟨h.1, h.2.1, fun m hm hsh => ⟨(h.2.2 m hm hsh).1, hsub _ (h.2.2 m hm hsh).2⟩⟩

theorem pageInv_handleInput (typed : List String) (key value : String) (s : Page)
    (h : PageInv typed s) :
    PageInv (typed ++ submittedTexts [Event.keydown key value]) (handleInput key value s) := by
  unfold handleInput
  by_cases hk : key = "Enter"
  · cases hv : trimTruthy value with
    | false =>
      simp only [hk, if_true, Bool.false_eq_true, if_false]
      exact pageInv_mono typed _ s (fun t ht => List.mem_append_left _ ht) h
    | true =>
      simp only [hk, if_true, submittedTexts, hv, and_self]
      obtain ⟨i1, i2, i3⟩ := h
      refine ⟨i1, ?_, ?_⟩
      · simpa [addMessage, optionBlocks_append, optionBlocks] using i2
      · intro m hmem hsh
        simp only [addMessage, transcript_append, transcript] at hmem
        rcases List.mem_append.mp hmem with hmem | hmem
        · exact ⟨(i3 m hmem hsh).1, List.mem_append_left _ (i3 m hmem hsh).2⟩
        · rw [List.mem_singleton.mp hmem]
          exact ⟨rfl, by simp⟩
  · simp only [hk, if_false]
    exact pageInv_mono typed _ s (fun t ht => List.mem_append_left _ ht) h

theorem pageInv_runDeflection (typed : List String) (s : Page) (h : PageInv typed s) :
    PageInv typed (runDeflection s) := by
  unfold runDeflection
  cases hd : s.deflections with
  | zero => exact h
  | succ n =>
    obtain ⟨i1, i2, i3⟩ := h
    refine ⟨i1, ?_, ?_⟩
    · simpa [addMessage, optionBlocks_append, optionBlocks] using i2
    · intro m hmem hsh
      simp only [addMessage, transcript_append, transcript] at hmem
      rcases List.mem_append.mp hmem with hmem | hmem
      · exact i3 m hmem hsh
      · rw [List.mem_singleton.mp hmem] at hsh
        exact absurd hsh (by decide)

theorem pageInv_step (typed : List String) (s : Page) (e : Event) (h : PageInv typed s) :
    PageInv (typed ++ submittedTexts [e]) (step chatData s e) := by
  cases e with
  | toggle =>
    have hne := pageInv_children_ne_nil typed s h
    have hlen : (s.children.length == 0) = false := by
      cases hc : s.children with
      | nil => exact absurd hc hne
      | cons x xs => rfl
    simp only [step, toggleChat, hlen, Bool.and_false, Outcome.state, submittedTexts,
      List.append_nil]
    exact h
  | click i =>
    simp only [step, submittedTexts, List.append_nil]
    cases hb : (renderedButtons s)[i]? with
    | none => exact h
    | some btn =>
      have hinv := h
      obtain ⟨_, ⟨p, hp, hblocks⟩, _⟩ := hinv
      have hmem : btn ∈ renderedButtons s := List.getElem?_mem hb
      simp only [renderedButtons, hblocks, List.flatten, List.append_nil, optionButtons,
        List.mem_map] at hmem
      obtain ⟨opt, hopt, rfl⟩ := hmem
      exact pageInv_handleOption typed opt s p hp hopt h
  | timeout =>
    simp only [step, runTimer, submittedTexts, List.append_nil]
    cases hts : s.timers with
    | nil => exact h
    | cons t rest =>
      obtain ⟨i1, _, i3⟩ := h
      rw [hts] at i1
      exact pageInv_showNode typed t _ (i1 t (List.mem_cons_self _ _)) i3
        (fun u hu => i1 u (List.mem_cons_of_mem _ hu))
  | keydown key value => exact pageInv_handleInput typed key value s h
  | deflect =>
    simp only [step, submittedTexts, List.append_nil]
    exact pageInv_runDeflection typed s h

theorem submittedTexts_cons (e : Event) (rest : List Event) :
    submittedTexts (e :: rest) = submittedTexts [e] ++ submittedTexts rest := by
  cases e with
  | keydown key value =>
    simp only [submittedTexts]
    split_ifs <;> rfl
  | toggle => rfl
  | click i => rfl
  | timeout => rfl
  | deflect => rfl

theorem pageInv_run (events : List Event) (typed : List String) (s : Page)
    (h : PageInv typed s) : PageInv (typed ++ submittedTexts events) (run chatData s events) := by
  induction events generalizing s typed with
  | nil =>
    simp only [submittedTexts, List.append_nil]
    exact h
  | cons e rest ih =>
    rw [submittedTexts_cons, ← List.append_assoc]
    exact ih _ (step chatData s e) (pageInv_step typed s e h)

/-- C2 (single option-set invariant). From the widget opened on an empty transcript,
  after any finite sequence of launcher clicks, button clicks (`handleOption`,
  with the `link`, `goto` and `whatsapp` actions), elapsed display delays
  (the deferred `showNode`) and free-text submissions with their deflections,
  the transcript holds exactly one `chat-options` block; and `showNode` of a node of `chatData`, on any page, removes every
  option block rendered before and appends the block of the node, which is then
  the only one. -/
theorem single_option_set :
    (∀ events : List Event,
      (optionBlocks (run chatData (opened chatData) events).children).length = 1) ∧
    (∀ (name : String) (data : Node) (opts : List Opt) (s : Page),
      getProp name chatData = some data → data.options = some opts →
      (showNode chatData name s).failed = false ∧
      (showNode chatData name s).state.children =
        (s.children ++ [Elem.msg Sender.bot data.msg]).filter (fun el => !el.isChatOptions)
          ++ [optionsDiv opts] ∧
      optionBlocks (showNode chatData name s).state.children = [optionButtons opts]) := by
  constructor
  · intro events
    obtain ⟨_, ⟨p, _, hb⟩, _⟩ := pageInv_run events [] (opened chatData) pageInv_opened
    rw [hb]
    rfl
  · intro name data opts s hd ho
    rw [showNode_own chatData name data opts s hd ho]
    refine ⟨rfl, rfl, ?_⟩
    simp [Outcome.state, optionBlocks_append, optionBlocks_removeOptions, optionsDiv,
      optionBlocks]

/-- Witness of C2: a run through `platforms` and back, and `showNode` on a page
  that holds two stale option blocks. -/
theorem single_option_set_witness :
    (optionBlocks (run chatData (opened chatData)
      [Event.click 0, Event.timeout, Event.click 0, Event.click 2, Event.timeout]).children).length
      = 1 ∧
    defined chatData "contact" = true ∧
    (optionBlocks (showNode chatData "contact"
      { Page.initial with children := [Elem.options [], Elem.options []] }).state.children).length
      = 1 := by
  refine ⟨single_option_set.1 _, by decide, ?_⟩
  cases hd : getProp "contact" chatData with
  | none => exact absurd hd (by decide)
  | some data =>
    obtain ⟨opts, ho⟩ := chatData_defined_options "contact" data hd
    rw [(single_option_set.2 "contact" data opts _ hd ho).2.2]
    rfl

theorem chatData_whatsapp_facts :
    ∀ p ∈ chatData, ∀ opt ∈ p.2.optionList, getProp "action" opt = some "whatsapp" →
      timesWritten "text" opt = 2 ∧ truthy (getProp "next" opt) = false ∧
      (getProp "text" opt).isSome = true ∧
      ((opt.head?).map (fun kv => decide (kv.1 = "text" ∧ shadowedLabel kv.2))) = some true := by
  decide

/-- C10 (duplicate `text` key). For every option of `chatData` with action `whatsapp`:
  the literal writes the key `text` twice, the first time with one of the labels
  "Sim, no WhatsApp" and "WhatsApp Direto"; the value read is the one written
  last. `showNode` of the option's node, on any page, renders a button for the
  option whose label is that value, and the rendered buttons are the buttons of
  the node's options and no others; `handleOption` appends that value as the
  user message and opens the wa.me link with that value percent-encoded. And
  on the widget, whatever happens after it was opened (launcher clicks, button
  clicks, elapsed delays, free text typed in the field), no button shows
  "Sim, no WhatsApp" or "WhatsApp Direto", and a message shows one of them only
  when it is a user message whose text was submitted through the free-text
  field. -/
theorem whatsapp_label_is_message :
    (∀ (name : String) (data : Node) (opts : List Opt) (opt : Opt) (s : Page),
      getProp name chatData = some data → data.options = some opts → opt ∈ opts →
      getProp "action" opt = some "whatsapp" →
      timesWritten "text" opt = 2 ∧
      ∃ first text, opt.head? = some ("text", first) ∧ shadowedLabel first ∧
        getProp "text" opt = some text ∧ ¬ shadowedLabel text ∧
        (showNode chatData name s).failed = false ∧
        renderedButtons (showNode chatData name s).state = optionButtons opts ∧
        ({ label := text, onclick := opt } : Button) ∈
          renderedButtons (showNode chatData name s).state ∧
        (∀ btn ∈ renderedButtons (showNode chatData name s).state,
          (btn.onclick = opt → btn.label = text) ∧ ¬ shadowedLabel btn.label) ∧
        handleOption opt s =
          { s with
            children := s.children ++ [Elem.msg Sender.user text,
              Elem.msg Sender.bot "Redirecionando para o WhatsApp..."]
            opened := s.opened ++ ["https://wa.me/258840000000?text=" ++ encodeURIComponent text] }) ∧
    (∀ events : List Event,
      (∀ btn ∈ renderedButtons (run chatData (opened chatData) events), ¬ shadowedLabel btn.label) ∧
      (∀ m ∈ transcript (run chatData (opened chatData) events).children,
        shadowedLabel m.2 → m.1 = Sender.user ∧ m.2 ∈ submittedTexts events)) := by
  constructor
  · intro name data opts opt s hd ho hmem hact
    have hp := getProp_mem name chatData data hd
    have hol := optionList_of_options data opts ho
    have hmem2 : opt ∈ (name, data).2.optionList := by
      rw [hol]; exact hmem
    obtain ⟨h2, hnext, htext, hhead⟩ := chatData_whatsapp_facts (name, data) hp opt hmem2 hact
    obtain ⟨hlabel, _⟩ := chatData_option_facts (name, data) hp opt hmem2
    obtain ⟨text, ht⟩ := Option.isSome_iff_exists.mp htext
    refine ⟨h2, ?_⟩
    cases hh : opt.head? with
    | none => rw [hh] at hhead; simp at hhead
    | some kv =>
      rw [hh] at hhead
      simp only [Option.map_some', Option.some.injEq, decide_eq_true_eq] at hhead
      obtain ⟨k, first⟩ := kv
      obtain ⟨hk, hfirst⟩ := hhead
      simp only at hk hfirst
      subst hk
      rw [ht] at hlabel
      have hrb : renderedButtons (showNode chatData name s).state = optionButtons opts := by
        rw [showNode_own chatData name data opts s hd ho]
        simp [renderedButtons, Outcome.state, optionBlocks_append, optionBlocks_removeOptions,
          optionsDiv, optionBlocks]
      refine ⟨first, text, rfl, hfirst, ht, hlabel, ?_, hrb, ?_, ?_, ?_⟩
      · rw [showNode_own chatData name data opts s hd ho]
        rfl
      · rw [hrb]
        simp only [optionButtons, List.mem_map]
        exact ⟨opt, hmem, by simp [ht, jsString]⟩
      · intro btn hbtn
        rw [hrb] at hbtn
        simp only [optionButtons, List.mem_map] at hbtn
        obtain ⟨o, ho2, rfl⟩ := hbtn
        refine ⟨?_, ?_⟩
        · intro honclick
          simp only at honclick
          subst honclick
          simp [ht, jsString]
        · exact (chatData_option_facts (name, data) hp o (by rw [hol]; exact ho2)).1
      · have hl : getProp "action" opt ≠ some "link" := by rw [hact]; decide
        have hg : getProp "action" opt ≠ some "goto" := by rw [hact]; decide
        simp [handleOption, hnext, hl, hg, hact, ht, jsString, addMessage, whatsappLink]
  · intro events
    have hinv := pageInv_run events [] (opened chatData) pageInv_opened
    obtain ⟨_, ⟨p, hp, hb⟩, h3⟩ := hinv
    refine ⟨?_, ?_⟩
    · intro btn hbtn
      simp only [renderedButtons, hb, List.flatten, List.append_nil, optionButtons,
        List.mem_map] at hbtn
      obtain ⟨opt, hopt, rfl⟩ := hbtn
      exact (chatData_option_facts p hp opt hopt).1
    · intro m hm hsh
      have := h3 m hm hsh
      simpa using this

/-- Witness of C10: the `whatsapp` option of `consulting`, rendered and selected on
  the freshly opened widget. -/
theorem whatsapp_label_is_message_witness :
    getProp "action" [("text", "Sim, no WhatsApp"), ("action", "whatsapp"),
      ("text", "Olá! Quero um diagnóstico para a minha empresa.")] = some "whatsapp" ∧
    timesWritten "text" [("text", "Sim, no WhatsApp"), ("action", "whatsapp"),
      ("text", "Olá! Quero um diagnóstico para a minha empresa.")] = 2 ∧
    ({ label := "Olá! Quero um diagnóstico para a minha empresa.",
       onclick := [("text", "Sim, no WhatsApp"), ("action", "whatsapp"),
        ("text", "Olá! Quero um diagnóstico para a minha empresa.")] } : Button) ∈
      renderedButtons (showNode chatData "consulting" (opened chatData)).state ∧
    transcript (handleOption [("text", "Sim, no WhatsApp"), ("action", "whatsapp"),
      ("text", "Olá! Quero um diagnóstico para a minha empresa.")] (opened chatData)).children =
      [ (Sender.bot, "Olá! 👋 Bem-vindo à Carpintaria Digital. Eu sou o Assistente Virtual. Como posso ajudar o seu negócio hoje?"),
        (Sender.user, "Olá! Quero um diagnóstico para a minha empresa."),
        (Sender.bot, "Redirecionando para o WhatsApp...") ] ∧
    (handleOption [("text", "Sim, no WhatsApp"), ("action", "whatsapp"),
      ("text", "Olá! Quero um diagnóstico para a minha empresa.")] (opened chatData)).opened =
      ["https://wa.me/258840000000?text=Ol%C3%A1!%20Quero%20um%20diagn%C3%B3stico%20para%20a%20minha%20empresa."] := by
  cases hd : getProp "consulting" chatData with
  | none => exact absurd hd (by decide)
  | some data =>
    obtain ⟨opts, ho⟩ := chatData_defined_options "consulting" data hd
    have hm : [("text", "Sim, no WhatsApp"), ("action", "whatsapp"),
        ("text", "Olá! Quero um diagnóstico para a minha empresa.")] ∈
        ((getProp "consulting" chatData).map Node.optionList).getD [] := by decide
    rw [hd] at hm
    simp only [Option.map_some', Option.getD_some] at hm
    rw [optionList_of_options data opts ho] at hm
    obtain ⟨h2, first, text, _, _, ht, _, _, _, hin, _, hh⟩ :=
      whatsapp_label_is_message.1 "consulting" data opts _ (opened chatData) hd ho hm (by decide)
    have htext : text = "Olá! Quero um diagnóstico para a minha empresa." := by
      have h0 : getProp "text" [("text", "Sim, no WhatsApp"), ("action", "whatsapp"),
          ("text", "Olá! Quero um diagnóstico para a minha empresa.")] =
          some "Olá! Quero um diagnóstico para a minha empresa." := by decide
      rw [h0] at ht
      exact (Option.some.inj ht).symm
    subst htext
    refine ⟨by decide, h2, hin, ?_, ?_⟩
    · rw [hh]
      decide
    · rw [hh]
      decide

/-- Counterexample to C8: "🚀 Ver Plataformas" is selected, the widget is closed, the
  display delay elapses: the render runs on the closed widget, appends the msg of
  `platforms` and replaces the option set. -/
theorem stale_timer_counterexample :
    (run chatData (opened chatData) [Event.click 0, Event.toggle]).active = false ∧
    (run chatData (opened chatData) [Event.click 0, Event.toggle]).timers = ["platforms"] ∧
    transcript (run chatData (opened chatData) [Event.click 0, Event.toggle]).children =
      [ (Sender.bot, "Olá! 👋 Bem-vindo à Carpintaria Digital. Eu sou o Assistente Virtual. Como posso ajudar o seu negócio hoje?"),
        (Sender.user, "🚀 Ver Plataformas") ] ∧
    (renderedButtons (run chatData (opened chatData) [Event.click 0, Event.toggle])).map
      (fun b => b.label) = ["🚀 Ver Plataformas", "💰 Consultoria", "📞 Falar com Humano"] ∧
    transcript (run chatData (opened chatData)
        [Event.click 0, Event.toggle, Event.timeout]).children =
      [ (Sender.bot, "Olá! 👋 Bem-vindo à Carpintaria Digital. Eu sou o Assistente Virtual. Como posso ajudar o seu negócio hoje?"),
        (Sender.user, "🚀 Ver Plataformas"),
        (Sender.bot, "Temos soluções incríveis! Qual lhe interessa?") ] ∧
    (renderedButtons (run chatData (opened chatData)
        [Event.click 0, Event.toggle, Event.timeout])).map (fun b => b.label) =
      ["TiConta (ERP)", "Txiling (Eventos)", "Voltar"] := by
  decide

/-- C8, amended. When an option with a `next` that names a node with options is
  selected on the open widget and the widget is closed before the display delay
  elapses, the deferred render makes no check of the widget: on the closed
  widget it appends the msg of the target node as bot message and replaces the
  option blocks by the block of the target node. -/
theorem deferred_render_without_open_check (g : Graph) (opt : Opt) (next : String)
    (data : Node) (opts : List Opt) (s : Page) (hs : s.timers = []) (hactive : s.active = true)
    (h : getProp "next" opt = some next) (hne : next ≠ "")
    (hd : getProp next g = some data) (ho : data.options = some opts) :
    (toggleChat g (handleOption opt s)).state.active = false ∧
    (toggleChat g (handleOption opt s)).state.children =
      s.children ++ [Elem.msg Sender.user (jsString (getProp "text" opt))] ∧
    runTimer g (toggleChat g (handleOption opt s)).state = Outcome.done
      { s with
        active := false
        children :=
          (s.children ++ [Elem.msg Sender.user (jsString (getProp "text" opt))]
              ++ [Elem.msg Sender.bot data.msg]).filter (fun el => !el.isChatOptions)
            ++ [optionsDiv opts] } := by
  rw [handleOption_next opt next s h hne]
  simp only [toggleChat, hactive, Bool.not_true, Bool.false_and, Outcome.state, runTimer, hs,
    List.nil_append, Bool.false_eq_true, if_false, true_and]
  rw [showNode_own g next data opts _ hd ho]

/-- Witness of the amended C8 on `chatData`: "🚀 Ver Plataformas", close, timeout. -/
theorem deferred_render_without_open_check_witness :
    (opened chatData).timers = [] ∧ (opened chatData).active = true ∧
    (toggleChat chatData (handleOption [("text", "🚀 Ver Plataformas"), ("next", "platforms")]
      (opened chatData))).state.active = false ∧
    (runTimer chatData (toggleChat chatData (handleOption
      [("text", "🚀 Ver Plataformas"), ("next", "platforms")] (opened chatData))).state).failed
      = false := by
  cases hd : getProp "platforms" chatData with
  | none => exact absurd hd (by decide)
  | some data =>
    obtain ⟨opts, ho⟩ := chatData_defined_options "platforms" data hd
    have key := deferred_render_without_open_check chatData
      [("text", "🚀 Ver Plataformas"), ("next", "platforms")] "platforms" data opts
      (opened chatData) (by decide) (by decide) (by decide) (by decide) hd ho
    refine ⟨by decide, by decide, key.1, ?_⟩
    rw [key.2.2]
    rfl

/-- Counterexample to C9: `danglingGraph` has an option whose `next` names no defined
  node, yet opening the widget renders `start` without any rejection; the
  failure comes when the option is selected and its deferred `showNode` throws,
  leaving the page as it was. -/
theorem graph_validation_counterexample :
    hasDanglingEdge danglingGraph = true ∧
    (toggleChat danglingGraph Page.initial).failed = false ∧
    transcript (opened danglingGraph).children = [(Sender.bot, "Olá!")] ∧
    (renderedButtons (opened danglingGraph)).map (fun b => b.label) = ["Preços"] ∧
    (runTimer danglingGraph (step danglingGraph (opened danglingGraph) (Event.click 0))).failed
      = true ∧
    (runTimer danglingGraph (step danglingGraph (opened danglingGraph) (Event.click 0))).state.children
      = (step danglingGraph (opened danglingGraph) (Event.click 0)).children := by
  decide

/-- C9, amended. The engine validates nothing at load time. For every conversation
  graph that defines `start`, opening the widget renders the msg of `start`
  without rejection, whatever the `next` values of the graph name; and when an
  option whose `next` names a node that is neither defined nor inherited from
  `Object.prototype` is selected, the failure comes at the transition: the
  deferred `showNode` throws and leaves the transcript and the option blocks as
  they were after the user message. -/
theorem undefined_target_fails_at_transition (g : Graph) (start : Node)
    (hstart : getProp "start" g = some start) :
    ((toggleChat g Page.initial).failed = false ∧
      transcript (toggleChat g Page.initial).state.children = [(Sender.bot, start.msg)]) ∧
    (∀ (opt : Opt) (next : String) (s : Page), s.timers = [] →
      getProp "next" opt = some next → next ≠ "" → lookupNode g next = Lookup.undefined →
      (runTimer g (handleOption opt s)).failed = true ∧
      (runTimer g (handleOption opt s)).state.children =
        s.children ++ [Elem.msg Sender.user (jsString (getProp "text" opt))]) := by
  constructor
  · have hl := lookupNode_of_getProp g "start" start hstart
    cases ho : start.options with
    | none =>
      simp [toggleChat, Page.initial, showNode, hl, ho, Outcome.failed, Outcome.state,
        removeOldOptions, addMessage, Elem.isChatOptions, transcript]
    | some opts =>
      simp [toggleChat, Page.initial, showNode, hl, ho, Outcome.failed, Outcome.state,
        removeOldOptions, addMessage, Elem.isChatOptions, transcript, optionsDiv]
  · intro opt next s hs h hne hu
    rw [handleOption_next opt next s h hne]
    simp [runTimer, hs, showNode, hu, Outcome.failed, Outcome.state]

/-- Witness of the amended C9 on `danglingGraph`. -/
theorem undefined_target_fails_at_transition_witness :
    lookupNode danglingGraph "pricing" = Lookup.undefined ∧
    (toggleChat danglingGraph Page.initial).failed = false ∧
    (runTimer danglingGraph
      (handleOption [("text", "Preços"), ("next", "pricing")] (opened danglingGraph))).failed
      = true := by
  cases hd : getProp "start" danglingGraph with
  | none => exact absurd hd (by decide)
  | some start =>
    have key := undefined_target_fails_at_transition danglingGraph start hd
    exact ⟨by decide, key.1.1,
      (key.2 [("text", "Preços"), ("next", "pricing")] "pricing" (opened danglingGraph)
        (by decide) (by decide) (by decide) (by decide)).1⟩

/-! ## Service worker: the fetch listener -/

/-- C5 (network-first). For every GET request and every cache content, when the
  network fetch succeeds the fetch listener responds with the live network
  response, whatever the cache holds for the locator. -/
theorem network_first (net : Network) (st : CacheStorage) (request : Request)
    (response : Response) (hget : request.method = "GET")
    (hnet : net request = some response) :
    (onFetch net st request).1 = FetchResult.respond (some response) := by
  simp [onFetch, hget, hnet]

/-- Witness of C5: the cache holds an older body for the locator, the network
  answers with a new one. -/
theorem network_first_witness :
    cachesMatch [(CACHE_NAME, [(Request.get "/store", { status := 200, body := "old" })])]
      (Request.get "/store") = some { status := 200, body := "old" } ∧
    (onFetch (fun _ => some { status := 200, body := "new" })
      [(CACHE_NAME, [(Request.get "/store", { status := 200, body := "old" })])]
      (Request.get "/store")).1 = FetchResult.respond (some { status := 200, body := "new" }) :=
  ⟨by decide, network_first _ _ _ _ (by decide) rfl⟩

/-- C6 (offline fallback). For every GET request whose accept header includes
  text/html, when the network fetch fails and no generation holds an entry for
  the requested locator, the fetch listener responds with what `caches.match`
  gives for "/static/Entrada.html", whichever locator was requested, and leaves
  the storage as it is. -/
theorem offline_fallback (net : Network) (st : CacheStorage) (request : Request)
    (accept : String) (hget : request.method = "GET")
    (hacc : request.accept = some accept)
    (hinc : includesChars "text/html".data accept.data = true)
    (hnet : net request = none) (hmiss : cachesMatch st request = none) :
    onFetch net st request =
      (FetchResult.respond (cachesMatch st (Request.get "/static/Entrada.html")), st) := by
  simp [onFetch, hget, hnet, hmiss, hacc, hinc]

/-- Witness of C6: a navigation to a locator that is not cached, offline, with the
  fallback document in the cache. -/
theorem offline_fallback_witness :
    includesChars "text/html".data "text/html,application/xhtml+xml".data = true ∧
    onFetch (fun _ => none)
      [(CACHE_NAME, [(Request.get "/static/Entrada.html", { status := 200, body := "entrada" })])]
      { method := "GET", url := "/nowhere", accept := some "text/html,application/xhtml+xml" } =
      (FetchResult.respond (some { status := 200, body := "entrada" }),
        [(CACHE_NAME, [(Request.get "/static/Entrada.html", { status := 200, body := "entrada" })])]) := by
  refine ⟨by decide, ?_⟩
  rw [offline_fallback _ _ _ "text/html,application/xhtml+xml" (by decide) rfl (by decide) rfl
    (by decide)]
  decide

/-! ## Service worker: stored keys -/

theorem allKeysGet_open (name : String) (st : CacheStorage) (h : allKeysGet st) :
    allKeysGet (cachesOpen name st) := by
  unfold cachesOpen
  split_ifs
  · exact h
  · intro p hp e he
    rcases List.mem_append.mp hp with hp | hp
    · exact h p hp e he
    · rw [List.mem_singleton.mp hp] at he
      simp at he

theorem keysGet_cachesGet (name : String) (st : CacheStorage) (h : allKeysGet st) :
    ∀ e ∈ cachesGet name st, e.1.method = "GET" := by
  unfold cachesGet
  cases hf : st.find? (fun p => p.1 == name) with
  | none => intro e he; simp at he
  | some p => exact h p (List.mem_of_find?_eq_some hf)

theorem allKeysGet_set (name : String) (c : Cache) (st : CacheStorage) (h : allKeysGet st)
    (hc : ∀ e ∈ c, e.1.method = "GET") : allKeysGet (cachesSet name c st) := by
  intro p hp e he
  simp only [cachesSet, List.mem_map] at hp
  obtain ⟨q, hq, rfl⟩ := hp
  split_ifs at he
  · exact hc e he
  · exact h q hq e he

theorem keysGet_put (request : Request) (response : Response) (c : Cache)
    (hreq : request.method = "GET") (hc : ∀ e ∈ c, e.1.method = "GET") :
    ∀ e ∈ cachePut request response c, e.1.method = "GET" := by
  intro e he
  rcases List.mem_append.mp he with he | he
  · exact hc e (List.mem_of_mem_filter he)
  · rw [List.mem_singleton.mp he]
    exact hreq

/-- What `fetchAll` collects when the batch succeeds: one entry per locator, in
  order, each with the response the network gave, which is `ok` and not partial. -/
theorem fetchAll_spec (net : Network) (urls : List String) (es : List (Request × Response))
    (h : fetchAll net urls = some es) :
    es.map (fun e => e.1) = urls.map Request.get ∧
    ∀ e ∈ es, net e.1 = some e.2 ∧ e.2.addable = true := by
  induction urls generalizing es with
  | nil =>
    simp only [fetchAll, Option.some.injEq] at h
    subst h
    simp
  | cons url rest ih =>
    unfold fetchAll at h
    cases hn : net (Request.get url) with
    | none => rw [hn] at h; simp at h
    | some r =>
      rw [hn] at h
      simp only at h
      cases hok : r.addable with
      | false => rw [hok] at h; simp at h
      | true =>
        rw [hok] at h
        simp only [if_true] at h
        cases hr : fetchAll net rest with
        | none => rw [hr] at h; simp at h
        | some es2 =>
          rw [hr] at h
          simp only [Option.some.injEq] at h
          subst h
          obtain ⟨i1, i2⟩ := ih es2 hr
          refine ⟨by simp [i1], ?_⟩
          intro e he
          rcases List.mem_cons.mp he with he | he
          · rw [he]; exact ⟨hn, hok⟩
          · exact i2 e he

theorem keysGet_foldl_put (es : List (Request × Response)) (c : Cache)
    (hes : ∀ e ∈ es, e.1.method = "GET") (hc : ∀ e ∈ c, e.1.method = "GET") :
    ∀ e ∈ es.foldl (fun acc e => cachePut e.1 e.2 acc) c, e.1.method = "GET" := by
  induction es generalizing c with
  | nil => exact hc
  | cons x rest ih =>
    simp only [List.foldl_cons]
    exact ih _ (fun e he => hes e (List.mem_cons_of_mem _ he))
      (keysGet_put x.1 x.2 c (hes x (List.mem_cons_self _ _)) hc)

theorem allKeysGet_delete (name : String) (st : CacheStorage) (h : allKeysGet st) :
    allKeysGet (cachesDelete name st) :=
  fun p hp e he => h p (List.mem_of_mem_filter hp) e he

theorem allKeysGet_install (net : Network) (st : CacheStorage) (h : allKeysGet st) :
    allKeysGet (onInstall net st).1 := by
  have h1 := allKeysGet_open CACHE_NAME st h
  unfold onInstall
  simp only
  cases ha : cacheAddAll net ASSETS_TO_CACHE (cachesGet CACHE_NAME (cachesOpen CACHE_NAME st)) with
  | none => exact h1
  | some c =>
    simp only
    apply allKeysGet_set _ _ _ h1
    unfold cacheAddAll at ha
    cases hf : fetchAll net ASSETS_TO_CACHE with
    | none => rw [hf] at ha; simp at ha
    | some es =>
      rw [hf] at ha
      simp only [Option.some.injEq] at ha
      subst ha
      apply keysGet_foldl_put _ _ _ (keysGet_cachesGet _ _ h1)
      intro e he
      have hm := (fetchAll_spec net ASSETS_TO_CACHE es hf).1
      have he1 : e.1 ∈ es.map (fun e => e.1) := List.mem_map_of_mem _ he
      rw [hm, List.mem_map] at he1
      obtain ⟨u, _, hu⟩ := he1
      rw [← hu]
      rfl

theorem allKeysGet_activate (st : CacheStorage) (h : allKeysGet st) :
    allKeysGet (onActivate st) := by
  unfold onActivate
  generalize cachesKeys st = names
  induction names generalizing st with
  | nil => exact h
  | cons n rest ih =>
    simp only [List.foldl_cons]
    apply ih
    split_ifs
    · exact allKeysGet_delete n st h
    · exact h

theorem allKeysGet_fetch (net : Network) (st : CacheStorage) (request : Request)
    (h : allKeysGet st) : allKeysGet (onFetch net st request).2 := by
  unfold onFetch
  by_cases hm : request.method = "GET"
  · simp only [hm, bne_self_eq_false, Bool.false_eq_true, if_false]
    cases hn : net request with
    | some response =>
      simp only
      have h1 := allKeysGet_open CACHE_NAME st h
      split_ifs
      · exact h1
      · exact allKeysGet_set _ _ _ h1
          (keysGet_put request response _ hm (keysGet_cachesGet _ _ h1))
    | none =>
      simp only
      cases hc : cachesMatch st request with
      | some r => exact h
      | none =>
        simp only
        cases ha : request.accept with
        | none => exact h
        | some a =>
          simp only
          split_ifs <;> exact h
  · have hb : (request.method != "GET") = true := by simp [hm]
    simp only [hb, if_true]
    exact h

theorem cachesMatch_non_get (st : CacheStorage) (query : Request)
    (h : query.method ≠ "GET") : cachesMatch st query = none := by
  induction st with
  | nil => rfl
  | cons p rest ih =>
    obtain ⟨n, c⟩ := p
    have hb : (query.method != "GET") = true := by simp [h]
    simp [cachesMatch, cacheMatch, hb, ih]

/-- C7 (non-GET passthrough). For a request that is not a GET the fetch listener
  returns without calling `respondWith` and leaves every generation as it is;
  over storage whose keys are GET requests, after every sequence of install,
  activate and fetch events every key of every generation is still a GET
  request; and `caches.match` never finds a request that is not a GET. -/
theorem non_get_passthrough (st : CacheStorage) (hst : allKeysGet st) :
    (∀ (net : Network) (st1 : CacheStorage) (request : Request), request.method ≠ "GET" →
      onFetch net st1 request = (FetchResult.passthrough, st1)) ∧
    (∀ events : List SwEvent, allKeysGet (swRun st events)) ∧
    (∀ (events : List SwEvent) (query : Request), query.method ≠ "GET" →
      cachesMatch (swRun st events) query = none) := by
  refine ⟨?_, ?_, ?_⟩
  · intro net st1 request hm
    have hb : (request.method != "GET") = true := by simp [hm]
    simp [onFetch, hb]
  · intro events
    induction events generalizing st with
    | nil => exact hst
    | cons e rest ih =>
      apply ih
      cases e with
      | install net => exact allKeysGet_install net st hst
      | activate => exact allKeysGet_activate st hst
      | fetch net request => exact allKeysGet_fetch net st request hst
  · intro events query hq
    exact cachesMatch_non_get _ query hq

/-- Witness of C7: a POST issued before and after install and activate, on an
  origin without caches. -/
theorem non_get_passthrough_witness :
    allKeysGet [] ∧
    onFetch (fun _ => some { status := 200, body := "ok" }) []
      { method := "POST", url := "/store", accept := some "*/*" } =
      (FetchResult.passthrough, []) ∧
    cachesMatch (swRun []
      [ SwEvent.fetch (fun _ => some { status := 200, body := "ok" })
          { method := "POST", url := "/store", accept := some "*/*" },
        SwEvent.install (fun _ => some { status := 200, body := "ok" }),
        SwEvent.activate,
        SwEvent.fetch (fun _ => some { status := 200, body := "ok" })
          { method := "POST", url := "/store", accept := some "*/*" } ])
      { method := "POST", url := "/store", accept := some "*/*" } = none :=
  ⟨fun _ hp => absurd hp (List.not_mem_nil _),
    (non_get_passthrough [] (fun _ hp => absurd hp (List.not_mem_nil _))).1 _ _ _ (by decide),
    (non_get_passthrough [] (fun _ hp => absurd hp (List.not_mem_nil _))).2.2 _ _ (by decide)⟩

/-! ## Service worker: install and activate -/

theorem find_filter_url (c : Cache) (u v : String) (h : u ≠ v) :
    (c.filter (fun e => e.1.url != u)).find? (fun e => e.1.url == v) =
      c.find? (fun e => e.1.url == v) := by
  induction c with
  | nil => rfl
  | cons x rest ih =>
    by_cases hx : x.1.url = u
    · have hne : x.1.url ≠ v := by rw [hx]; exact h
      rw [List.filter_cons_of_neg (by simp [hx]), List.find?_cons_of_neg _ (by simp [hne])]
      exact ih
    · rw [List.filter_cons_of_pos (by simp [hx])]
      by_cases hv : x.1.url = v
      · rw [List.find?_cons_of_pos _ (by simp [hv]), List.find?_cons_of_pos _ (by simp [hv])]
      · rw [List.find?_cons_of_neg _ (by simp [hv]), List.find?_cons_of_neg _ (by simp [hv])]
        exact ih

theorem find_filter_same (c : Cache) (u : String) :
    (c.filter (fun e => e.1.url != u)).find? (fun e => e.1.url == u) = none := by
  induction c with
  | nil => rfl
  | cons x rest ih =>
    by_cases hx : x.1.url = u
    · rw [List.filter_cons_of_neg (by simp [hx])]
      exact ih
    · rw [List.filter_cons_of_pos (by simp [hx]), List.find?_cons_of_neg _ (by simp [hx])]
      exact ih

theorem cacheMatch_put_same (request : Request) (response : Response) (c : Cache)
    (query : Request) (hq : query.method = "GET") (hu : request.url = query.url) :
    cacheMatch (cachePut request response c) query = some response := by
  simp only [cacheMatch, hq, bne_self_eq_false, Bool.false_eq_true, if_false, cachePut,
    List.find?_append, hu, find_filter_same]
  simp [hu]

theorem cacheMatch_put_other (request : Request) (response : Response) (c : Cache)
    (query : Request) (hu : request.url ≠ query.url) :
    cacheMatch (cachePut request response c) query = cacheMatch c query := by
  unfold cacheMatch
  split_ifs
  · rfl
  · simp only [cachePut, List.find?_append, find_filter_url c _ _ hu]
    cases c.find? (fun e => e.1.url == query.url) with
    | some e => simp
    | none => simp [hu]

/-- After a batch of `put`, a locator of the batch matches the response the
  batch has for it. -/
theorem cacheMatch_foldl_put (es : List (Request × Response)) (c : Cache) (url : String)
    (r : Response) (hex : ∃ e ∈ es, e.1.url = url)
    (hall : ∀ e ∈ es, e.1.url = url → e.2 = r) :
    cacheMatch (es.foldl (fun acc e => cachePut e.1 e.2 acc) c) (Request.get url) = some r := by
  induction es using List.reverseRecOn with
  | nil => obtain ⟨e, he, _⟩ := hex; simp at he
  | append_singleton rest x ih =>
    rw [List.foldl_append]
    simp only [List.foldl_cons, List.foldl_nil]
    by_cases hx : x.1.url = url
    · rw [cacheMatch_put_same x.1 x.2 _ (Request.get url) rfl hx]
      rw [hall x (by simp) hx]
    · rw [cacheMatch_put_other x.1 x.2 _ (Request.get url) hx]
      apply ih
      · obtain ⟨e, he, hu⟩ := hex
        rcases List.mem_append.mp he with he | he
        · exact ⟨e, he, hu⟩
        · rw [List.mem_singleton.mp he] at hu
          exact absurd hu hx
      · intro e he
        exact hall e (List.mem_append_left _ he)

/-- A batch that `cache.addAll` accepts leaves, for every locator of the batch,
  the response the network gave for it. -/
theorem cacheAddAll_spec (net : Network) (urls : List String) (c c2 : Cache)
    (h : cacheAddAll net urls c = some c2) :
    ∀ url ∈ urls, ∃ r, net (Request.get url) = some r ∧
      cacheMatch c2 (Request.get url) = some r := by
  unfold cacheAddAll at h
  cases hf : fetchAll net urls with
  | none => rw [hf] at h; simp at h
  | some es =>
    rw [hf] at h
    simp only [Option.some.injEq] at h
    subst h
    obtain ⟨hkeys, hresp⟩ := fetchAll_spec net urls es hf
    have hkey : ∀ e ∈ es, e.1 = Request.get e.1.url ∧ e.1.url ∈ urls := by
      intro e he
      have he1 : e.1 ∈ es.map (fun e => e.1) := List.mem_map_of_mem _ he
      rw [hkeys, List.mem_map] at he1
      obtain ⟨u, hu, hue⟩ := he1
      rw [← hue]
      exact ⟨rfl, hu⟩
    intro url hurl
    have hmem : Request.get url ∈ es.map (fun e => e.1) := by
      rw [hkeys]; exact List.mem_map_of_mem _ hurl
    obtain ⟨e0, he0, hk0⟩ := List.mem_map.mp hmem
    have hn0 := (hresp e0 he0).1
    rw [hk0] at hn0
    refine ⟨e0.2, hn0, ?_⟩
    apply cacheMatch_foldl_put
    · exact ⟨e0, he0, by rw [hk0]; rfl⟩
    · intro e he hu
      have hn := (hresp e he).1
      rw [(hkey e he).1, hu, hn0] at hn
      exact (Option.some.inj hn).symm

theorem cachesHas_iff_mem (name : String) (st : CacheStorage) :
    cachesHas name st = true ↔ name ∈ cachesKeys st := by
  simp only [cachesHas, cachesKeys, List.any_eq_true, List.mem_map, beq_iff_eq]

theorem cachesHas_open (name : String) (st : CacheStorage) :
    cachesHas name (cachesOpen name st) = true := by
  unfold cachesOpen
  split_ifs with h
  · exact h
  · simp [cachesHas]

theorem cachesKeys_open_nodup (name : String) (st : CacheStorage)
    (h : (cachesKeys st).Nodup) : (cachesKeys (cachesOpen name st)).Nodup := by
  unfold cachesOpen
  split_ifs with hh
  · exact h
  · have hn : name ∉ cachesKeys st := fun hm => hh ((cachesHas_iff_mem name st).mpr hm)
    simp only [cachesKeys, List.map_append, List.map_cons, List.map_nil]
    refine List.Nodup.append h (List.nodup_singleton _) ?_
    intro a ha hb
    rw [List.mem_singleton.mp hb] at ha
    exact hn ha

theorem cachesKeys_set (name : String) (c : Cache) (st : CacheStorage) :
    cachesKeys (cachesSet name c st) = cachesKeys st := by
  induction st with
  | nil => rfl
  | cons p rest ih =>
    simp only [cachesKeys, cachesSet, List.map_cons] at ih ⊢
    rw [ih]
    split_ifs <;> rfl

theorem cachesGet_set (name : String) (c : Cache) (st : CacheStorage)
    (h : cachesHas name st = true) : cachesGet name (cachesSet name c st) = c := by
  induction st with
  | nil => simp [cachesHas] at h
  | cons p rest ih =>
    by_cases hp : p.1 = name
    · simp [cachesGet, cachesSet, hp]
    · have hr : cachesHas name rest = true := by
        simp only [cachesHas, List.any_cons, Bool.or_eq_true, beq_iff_eq] at h
        rcases h with h | h
        · exact absurd h hp
        · exact h
      have := ih hr
      simp only [cachesGet, cachesSet, List.map_cons] at this ⊢
      rw [if_neg (by simp [hp]), List.find?_cons_of_neg _ (by simp [hp])]
      exact this

theorem foldl_delete_eq_filter (names : List String) (acc : CacheStorage) :
    names.foldl (fun acc cache => if cache != CACHE_NAME then cachesDelete cache acc else acc) acc
      = acc.filter (fun p => decide (p.1 = CACHE_NAME ∨ p.1 ∉ names)) := by
  induction names generalizing acc with
  | nil => simp
  | cons n rest ih =>
    simp only [List.foldl_cons]
    rw [ih]
    by_cases hn : n = CACHE_NAME
    · rw [if_neg (by simp [hn])]
      apply List.filter_congr
      intro p _
      simp only [List.mem_cons, not_or, decide_eq_decide]
      constructor
      · rintro (h | h)
        · exact Or.inl h
        · by_cases hc : p.1 = CACHE_NAME
          · exact Or.inl hc
          · exact Or.inr ⟨by rw [hn]; exact hc, h⟩
      · rintro (h | h)
        · exact Or.inl h
        · exact Or.inr h.2
    · rw [if_pos (by simp [hn]), cachesDelete, List.filter_filter]
      apply List.filter_congr
      intro p _
      have hn2 : ¬ CACHE_NAME = n := fun h => hn h.symm
      by_cases hc : p.1 = CACHE_NAME
      · have h1 : p.1 ≠ n := by rw [hc]; exact hn2
        simp [hc, h1, hn, hn2]
      · by_cases h1 : p.1 = n <;> by_cases h2 : p.1 ∈ rest <;> simp [hc, h1, h2, hn, hn2]

theorem onActivate_eq_filter (st : CacheStorage) :
    onActivate st = st.filter (fun p => p.1 == CACHE_NAME) := by
  unfold onActivate
  rw [foldl_delete_eq_filter]
  apply List.filter_congr
  intro p hp
  have hm : p.1 ∈ cachesKeys st := List.mem_map_of_mem _ hp
  by_cases hc : p.1 = CACHE_NAME <;> simp [hm, hc]

theorem cachesGet_filter (st : CacheStorage) :
    cachesGet CACHE_NAME (st.filter (fun p => p.1 == CACHE_NAME)) = cachesGet CACHE_NAME st := by
  induction st with
  | nil => rfl
  | cons p rest ih =>
    by_cases hp : p.1 = CACHE_NAME
    · rw [List.filter_cons_of_pos (by simp [hp])]
      simp [cachesGet, hp]
    · rw [List.filter_cons_of_neg (by simp [hp])]
      rw [ih]
      simp only [cachesGet]
      rw [List.find?_cons_of_neg _ (by simp [hp])]

theorem filter_absent (st : CacheStorage) (h : CACHE_NAME ∉ cachesKeys st) :
    st.filter (fun p => p.1 == CACHE_NAME) = [] := by
  rw [List.filter_eq_nil_iff]
  intro p hp hc
  exact h (by rw [← beq_iff_eq.mp hc]; exact List.mem_map_of_mem _ hp)

theorem filter_current (st : CacheStorage) (hn : (cachesKeys st).Nodup)
    (hm : CACHE_NAME ∈ cachesKeys st) :
    st.filter (fun p => p.1 == CACHE_NAME) = [(CACHE_NAME, cachesGet CACHE_NAME st)] := by
  induction st with
  | nil => simp [cachesKeys] at hm
  | cons p rest ih =>
    obtain ⟨n, c⟩ := p
    simp only [cachesKeys, List.map_cons, List.nodup_cons] at hn
    by_cases hp : n = CACHE_NAME
    · subst hp
      rw [List.filter_cons_of_pos (by simp), filter_absent rest hn.1]
      simp [cachesGet]
    · rw [List.filter_cons_of_neg (by simp [hp])]
      have hm2 : CACHE_NAME ∈ cachesKeys rest := by
        simp only [cachesKeys, List.map_cons, List.mem_cons] at hm
        rcases hm with hm | hm
        · exact absurd hm.symm hp
        · exact hm
      rw [ih hn.2 hm2]
      simp only [cachesGet]
      rw [List.find?_cons_of_neg _ (by simp [hp])]

/-- C4 (cache versioning). For every set of existing cache generations (distinct
  names), after an install that succeeded followed by the activate listener,
  the storage holds the generation `CACHE_NAME` and no other, so `caches.match`
  finds nothing of any other generation, and for every locator of
  `ASSETS_TO_CACHE` the generation holds the response the network gave at
  install. -/
theorem cache_versioning (net : Network) (st : CacheStorage) (hnodup : (cachesKeys st).Nodup)
    (hok : (onInstall net st).2 = true) :
    cachesKeys (onActivate (onInstall net st).1) = [CACHE_NAME] ∧
    (∀ name, name ≠ CACHE_NAME → cachesHas name (onActivate (onInstall net st).1) = false) ∧
    (∀ query, cachesMatch (onActivate (onInstall net st).1) query =
      cacheMatch (cachesGet CACHE_NAME (onActivate (onInstall net st).1)) query) ∧
    (∀ url ∈ ASSETS_TO_CACHE, ∃ r, net (Request.get url) = some r ∧
      cacheMatch (cachesGet CACHE_NAME (onActivate (onInstall net st).1)) (Request.get url)
        = some r) := by
  have hhas := cachesHas_open CACHE_NAME st
  have hnd := cachesKeys_open_nodup CACHE_NAME st hnodup
  unfold onInstall at hok ⊢
  simp only at hok ⊢
  cases ha : cacheAddAll net ASSETS_TO_CACHE (cachesGet CACHE_NAME (cachesOpen CACHE_NAME st)) with
  | none => rw [ha] at hok; simp at hok
  | some c =>
    simp only
    have hkeys : cachesKeys (cachesSet CACHE_NAME c (cachesOpen CACHE_NAME st)) =
        cachesKeys (cachesOpen CACHE_NAME st) := cachesKeys_set _ _ _
    have hcur := filter_current (cachesSet CACHE_NAME c (cachesOpen CACHE_NAME st))
      (by rw [hkeys]; exact hnd)
      (by rw [hkeys]; exact (cachesHas_iff_mem _ _).mp hhas)
    rw [cachesGet_set CACHE_NAME c _ hhas] at hcur
    rw [onActivate_eq_filter, hcur]
    refine ⟨rfl, ?_, ?_, ?_⟩
    · intro name hname
      simp [cachesHas, Ne.symm hname]
    · intro query
      simp only [cachesMatch, cachesGet, List.find?_cons_of_pos, beq_self_eq_true]
      cases cacheMatch c query <;> rfl
    · have hg : cachesGet CACHE_NAME [(CACHE_NAME, c)] = c := by simp [cachesGet]
      rw [hg]
      exact cacheAddAll_spec net ASSETS_TO_CACHE _ c ha

/-- Witness of C4: an origin that holds the generation of an older controller, and a
  network that answers every locator. -/
theorem cache_versioning_witness :
    (cachesKeys [("carpintaria-os-v4.4", [(Request.get "/", { status := 200, body := "v4.4" })])]).Nodup ∧
    (onInstall (fun _ => some { status := 200, body := "v4.5" })
      [("carpintaria-os-v4.4", [(Request.get "/", { status := 200, body := "v4.4" })])]).2 = true ∧
    cachesKeys (onActivate (onInstall (fun _ => some { status := 200, body := "v4.5" })
      [("carpintaria-os-v4.4", [(Request.get "/", { status := 200, body := "v4.4" })])]).1)
      = [CACHE_NAME] :=
  ⟨by decide, by decide,
    (cache_versioning (fun _ => some { status := 200, body := "v4.5" })
      [("carpintaria-os-v4.4", [(Request.get "/", { status := 200, body := "v4.4" })])]
      (by decide) (by decide)).1⟩

end Carpintaria
